import Mathlib

/-!
# Verification of the entry code of the distributed file-storage system

Shallow embedding of the Go entry file (`makeServer.go`: configuration
loading, server construction, gob message registration, the interactive
command loop) and of the audit logger, together with theorems settling the
frozen claims about this code.

Conventions:
* Go strings are Lean `String`s; byte slices are `List Nat`.
* Side effects (file opens, reads, random key generation, calls into the
  `FileServer`) are made explicit: either as parameters (an environment of
  oracles standing for the results the surrounding process would produce)
  or as effect traces accumulated in the result.
* Fallible operations return `Option`: `none` is Go's non-nil `error`.
-/

/-! ## String helpers mirroring the Go standard library -/

/-- `(s ++ t).data = s.data ++ t.data`; `String.append` concatenates the
underlying character lists. -/
theorem string_data_append (s t : String) : (s ++ t).data = s.data ++ t.data := by
  cases s; cases t; rfl

/-- `unicode.IsSpace` restricted to the Latin-1 range, which is all the REPL
ever meets: `'\t'`, `'\n'`, `'\v'`, `'\f'`, `'\r'`, `' '`, U+0085, U+00A0. -/
def goIsSpace (c : Char) : Bool :=
  c = ' ' || c = '\t' || c = '\n' || c = '\x0b' || c = '\x0c' || c = '\r' ||
  c = '\x85' || c = '\xa0'

/-- ASCII case folding of one character, the fragment of `strings.ToLower`
relevant to command words. -/
def goToLowerChar (c : Char) : Char :=
  if 'A' ≤ c ∧ c ≤ 'Z' then Char.ofNat (c.toNat + 32) else c

/-- `strings.ToLower` (ASCII fragment). -/
def goToLower (s : String) : String := ⟨s.data.map goToLowerChar⟩

/-- Accumulator pass of `strings.Fields`: splits a character list at runs of
whitespace, `acc` holding the (reversed) current token. -/
def fieldsAux : List Char → List Char → List (List Char)
  | [], acc => if acc.isEmpty then [] else [acc.reverse]
  | c :: rest, acc =>
    if goIsSpace c then
      if acc.isEmpty then fieldsAux rest [] else acc.reverse :: fieldsAux rest []
    else fieldsAux rest (c :: acc)

/-- `strings.Fields`: split around every maximal run of whitespace. -/
def goFields (s : String) : List String := (fieldsAux s.data []).map fun l => ⟨l⟩

/-- `strings.Split(s, ",")`. Lean's `String.splitOn` has the same semantics
for a non-empty separator. -/
def splitComma (s : String) : List String := s.splitOn ","

/-- `strings.ReplaceAll(s, ":", "_")`: a single-character pattern makes this a
character-wise map. -/
def replaceColon (s : String) : String :=
  ⟨s.data.map fun c => if c = ':' then '_' else c⟩

/-- `filepath.Base` on a Unix path: empty path gives `"."`, trailing slashes
are removed, the last element is returned, all-slash paths give `"/"`. -/
def basePath (p : String) : String :=
  if p.data.isEmpty then "."
  else
    let trimmed := (p.data.reverse.dropWhile (· = '/')).reverse
    if trimmed.isEmpty then "/"
    else ⟨(trimmed.reverse.takeWhile (· ≠ '/')).reverse⟩

/-- Modelled from the spec: `getExtension` is not among the provided sources;
per the REPL description of `get`, a name's extension is the suffix starting
at the final dot of its final path element, empty when that element has no
dot. -/
def getExtension (name : String) : String :=
  let seg := name.data.reverse.takeWhile (· ≠ '/')
  if seg.contains '.' then ⟨'.' :: (seg.takeWhile (· ≠ '.')).reverse⟩ else ""

/-- `fmt.Println` of a Go string slice: elements space-joined inside
brackets. -/
def printSlice (args : List String) : String :=
  "[" ++ String.intercalate " " args ++ "]"

/-! ## Control messages and `registerAll` (src/makeServer.go lines 107-116) -/

/-- The control-message variants of the wire protocol, named as the Go
structs registered with `gob`. -/
inductive ControlMessage
  | MessageStoreFile
  | MessageGetFile
  | MessageDeleteFile
  | MessageGetFileNotFound
  | MessageStoreAck
  | MessageDeleteAck
  | MessageDuplicateCheck
  | MessageDuplicateResponse
deriving DecidableEq

/-- `registerAll`: the list of variants registered with the gob encoder, in
source order. -/
def registerAll : List ControlMessage :=
  [.MessageStoreFile, .MessageGetFile, .MessageDeleteFile, .MessageGetFileNotFound,
   .MessageStoreAck, .MessageDeleteAck, .MessageDuplicateCheck, .MessageDuplicateResponse]

/-- The eight variants the spec's data model names, in the spec's order:
StoreFile, GetFile, DeleteFile, GetFileNotFound, StoreAck, DeleteAck,
DuplicateCheck, DuplicateResponse. -/
def dataModelVariants : List ControlMessage :=
  [.MessageStoreFile, .MessageGetFile, .MessageDeleteFile, .MessageGetFileNotFound,
   .MessageStoreAck, .MessageDeleteAck, .MessageDuplicateCheck, .MessageDuplicateResponse]

/-! ## Audit logger (audit source file, `simpleNewAuditLogger` and `Log`) -/

/-- Flags passed to `os.OpenFile`. -/
inductive OpenFlag
  | append
  | create
  | wronly
deriving DecidableEq

/-- The audit log file: the flags it was opened with and the successive
`WriteString` payloads, in order. -/
structure AuditFile where
  flags : List OpenFlag
  chunks : List String
deriving DecidableEq

/-- `AuditLogger`: the open file handle plus the remembered path. The
`sync.Mutex` is modelled by the event trace `Log` returns. -/
structure AuditLogger where
  logFile : AuditFile
  logFilePath : String
deriving DecidableEq

/-- `simpleNewAuditLogger`: opens `logFileName` with
`O_APPEND|O_CREATE|O_WRONLY` (failure propagated as `none`), writes the
start banner and a blank line. `nowTs` is `time.Now().Format(time.RFC3339)`. -/
def simpleNewAuditLogger (nowTs logFileName : String) (openOk : Bool) :
    Option AuditLogger :=
  if openOk then
    some { logFile := { flags := [.append, .create, .wronly],
                        chunks := ["[" ++ nowTs ++ "] LOGGING STARTED....\n", "\n"] },
           logFilePath := logFileName }
  else none

/-- The single entry `Log` formats:
`fmt.Sprintf("%s | %s | %s | %s | %s\n", ts, op, filekey, peer, status)`. -/
def auditLine (nowTs op filekey peer status : String) : String :=
  nowTs ++ " | " ++ op ++ " | " ++ filekey ++ " | " ++ peer ++ " | " ++ status ++ "\n"

/-- Events of one `Log` call, making the mutex discipline explicit. -/
inductive LogEvent
  | lock
  | writeChunk (s : String)
  | unlock
deriving DecidableEq

/-- `AuditLogger.Log`: takes the mutex, appends the formatted entry with one
`WriteString`, releases the mutex. Returns the new logger state and the event
trace of the call. -/
def AuditLogger.Log (a : AuditLogger) (nowTs op filekey peer status : String) :
    AuditLogger × List LogEvent :=
  let entry := auditLine nowTs op filekey peer status
  ({ a with logFile := { a.logFile with chunks := a.logFile.chunks ++ [entry] } },
   [.lock, .writeChunk entry, .unlock])

/-! ## Configuration loading (src/makeServer.go lines 19-37)

`loadConfig` opens a file and decodes it with `encoding/json` into
`[]ServerConfig`. JSON documents are embedded as `Json` trees; the decoder
below follows Go's documented unmarshalling semantics for this target type:
a `null` leaves the target at its zero value, object fields are matched by
name (exact match first, else case-insensitive), absent fields keep zero
values, and any other shape mismatch is an error. -/

/-- A JSON document. -/
inductive Json where
  | null
  | bool (b : Bool)
  | num (n : Int)
  | str (s : String)
  | arr (elems : List Json)
  | obj (fields : List (String × Json))

/-- `ServerConfig` with tags `json:"port"` and `json:"peers"`. -/
structure ServerConfig where
  Port : String
  BootstrapNodes : List String
deriving DecidableEq

/-- Go's struct-field match: the key equal to the tag, else the first key
equal up to ASCII case. -/
def lookupField (fs : List (String × Json)) (name : String) : Option Json :=
  match fs.find? (fun p => p.1 = name) with
  | some p => some p.2
  | none => (fs.find? (fun p => goToLower p.1 = goToLower name)).map (·.2)

/-- Decoding a JSON value into a `string` field: absent or `null` keeps the
zero value `""`; a string is taken verbatim; anything else is an error. -/
def decodeStringField : Option Json → Option String
  | none => some ""
  | some .null => some ""
  | some (.str s) => some s
  | some _ => none

/-- Decoding one element of a `[]string`: `null` gives `""`, a string is
taken verbatim, anything else is an error. -/
def decodePeerElem : Json → Option String
  | .null => some ""
  | .str s => some s
  | _ => none

/-- Element-wise decoding of a JSON array, in order, aborting at the first
failing element as Go's decoder does. -/
def mapOpt {α β : Type} (f : α → Option β) : List α → Option (List β)
  | [] => some []
  | x :: xs =>
    match f x with
    | some y =>
      match mapOpt f xs with
      | some ys => some (y :: ys)
      | none => none
    | none => none

/-- Decoding a JSON value into a `[]string` field: absent or `null` gives the
zero value, an array decodes element-wise, anything else is an error. -/
def decodePeersField : Option Json → Option (List String)
  | none => some []
  | some .null => some []
  | some (.arr xs) => mapOpt decodePeerElem xs
  | some _ => none

/-- Decoding one element of `[]ServerConfig`: `null` keeps the zero struct,
an object decodes field-wise, anything else is an error. -/
def decodeServerConfig : Json → Option ServerConfig
  | .null => some ⟨"", []⟩
  | .obj fs =>
    match decodeStringField (lookupField fs "port") with
    | none => none
    | some port =>
      match decodePeersField (lookupField fs "peers") with
      | none => none
      | some peers => some ⟨port, peers⟩
  | _ => none

/-- Decoding the whole document into `[]ServerConfig`: `null` gives the nil
slice, an array decodes element-wise, anything else is an error. -/
def decodeConfigList : Json → Option (List ServerConfig)
  | .null => some []
  | .arr xs => mapOpt decodeServerConfig xs
  | _ => none

/-- `loadConfig`: `none` input is a failed `os.Open` (error returned); on an
opened file the decoder runs; `none` output is the `(nil, err)` return. -/
def loadConfig (file : Option Json) : Option (List ServerConfig) :=
  match file with
  | none => none
  | some j => decodeConfigList j

/-- The claim's reading of a well-formed document, from its words: a JSON
array of objects each carrying both a "port" and a "peers" field. This
definition follows the claim, not the source, and is compared with the
decoder. -/
def specArrayOfPortPeersObjects : Json → Bool
  | .arr xs => xs.all fun e =>
      match e with
      | .obj fs => (fs.any (·.1 = "port")) && (fs.any (·.1 = "peers"))
      | _ => false
  | _ => false

/-- Shapes of a `string`-field value the decoder accepts. -/
def goodStr : Option Json → Bool
  | none => true
  | some .null => true
  | some (.str _) => true
  | some _ => false

/-- Shapes of a `[]string`-field value the decoder accepts. -/
def goodPeers : Option Json → Bool
  | none => true
  | some .null => true
  | some (.arr xs) => xs.all fun e =>
      match e with
      | .null => true
      | .str _ => true
      | _ => false
  | some _ => false

/-- Shapes of a `[]ServerConfig` element the decoder accepts. -/
def goodElem : Json → Bool
  | .null => true
  | .obj fs => goodStr (lookupField fs "port") && goodPeers (lookupField fs "peers")
  | _ => false

/-- Shapes of a whole document the decoder accepts. -/
def goodTop : Json → Bool
  | .null => true
  | .arr xs => xs.all goodElem
  | _ => false

/-! ## Server construction (src/makeServer.go lines 39-80)

`makeServer` builds the TCP transport options, the file-server options and
the server. Its two effectful inputs are made explicit: `freshKey` is the
byte string returned by the `newEncryptionKey()` call in its body, and the
effect trace records every operation the body performs, so the absence of
key persistence is visible in the model. -/

/-- Result of running a handshake: bytes moved in each direction and whether
the peer was accepted. -/
structure HandshakeResult where
  bytesSent : Nat
  bytesReceived : Nat
  ok : Bool
deriving DecidableEq

/-- Modelled from the spec: `p2p.DefensiveHandshakeFunc` is not among the
provided sources; per the spec it is the permissive default policy, "no
bytes exchanged, always succeeds". -/
def DefensiveHandshakeFunc (_peer : String) : HandshakeResult :=
  { bytesSent := 0, bytesReceived := 0, ok := true }

/-- `p2p.TCPTransportOps` as populated by `makeServer`. -/
structure TCPTransportOps where
  ListenerPortAddr : String
  ShakeHands : String → HandshakeResult
  OnPeerSet : Bool

/-- `FileServerOps` as populated by `makeServer`. -/
structure FileServerOps where
  ID : String
  RootStorage : String
  BootstrapNodes : List String
  EncKey : List Nat

/-- Operations the body of `makeServer` performs, in order. The key-file
read/write constructors exist to state their absence: the corresponding Go
code (lines 52-57) is commented out. -/
inductive StartupEffect
  | newTCPTransport
  | newEncryptionKey
  | newFileServer
  | readKeyFile (path : String)
  | writeKeyFile (path : String)
deriving DecidableEq

/-- A constructed server: the options records plus the effect trace. -/
structure MadeServer where
  fsOps : FileServerOps
  tcpOps : TCPTransportOps
  effects : List StartupEffect

/-- The storage root computed at lines 61-64:
`strings.ReplaceAll(port, ":", "_") + "_gyattt"`. -/
def storageRoot (port : String) : String := replaceColon port ++ "_gyattt"

/-- `makeServer`: builds the transport options with the defensive handshake,
generates a fresh encryption key (`freshKey` is that call's result), derives
the storage root from the listen address, and assembles the server. The
`OnPeer` hook starts `nil` and is assigned after `NewFileServer` (line 77),
recorded as `OnPeerSet := true`. -/
def makeServer (configFile : ServerConfig) (freshKey : List Nat) : MadeServer :=
  let tcpops : TCPTransportOps :=
    { ListenerPortAddr := configFile.Port
      ShakeHands := DefensiveHandshakeFunc
      OnPeerSet := false }
  let newAddr := replaceColon configFile.Port
  let fileServerOps : FileServerOps :=
    { ID := ""
      RootStorage := newAddr ++ "_gyattt"
      BootstrapNodes := configFile.BootstrapNodes
      EncKey := freshKey }
  { fsOps := fileServerOps
    tcpOps := { tcpops with OnPeerSet := true }
    effects := [.newTCPTransport, .newEncryptionKey, .newFileServer] }

/-! ## The command loop (src/makeServer.go lines 118-239)

`runCommandLoop` reads lines, splits them with `strings.Fields`, lowercases
the first word and dispatches. The `FileServer` and the filesystem are
outside this file, so their responses are an environment of oracles; the
calls the loop makes into them are collected in the step result, which is
how "no operation was invoked" is stated. -/

/-- A call from the loop into the `FileServer`. -/
inductive FsOp
  | store (key : String)
  | get (key : String)
  | delete (key : String)
  | deleteLocal (key : String)
  | deleteRemote (key : String) (peers : List String)
deriving DecidableEq

/-- How one loop iteration ends: fall through to the next prompt, `return`
out of the loop (`quit`), or `log.Fatal` (process exit with a nonzero
code). -/
inductive LoopCtl
  | next
  | quitLoop
  | fatal
deriving DecidableEq

/-- Observable outcome of handling one line: console outputs in order, the
`FileServer` calls made, the keys passed to `io.ReadAll`, and how the
iteration ended. -/
structure StepResult where
  outputs : List String
  ops : List FsOp
  reads : List String
  ctl : LoopCtl
deriving DecidableEq

/-- Oracles for everything outside the loop: whether `os.Open` succeeds and
the error text when not, the error (if any) of each `FileServer` call, the
location string `Get` reports, and the result of `io.ReadAll` on the reader
`Get` returned (`Except` error text / content). -/
structure ReplEnv where
  openOk : String → Bool
  openErrMsg : String → String
  storeErr : String → Option String
  getErr : String → Option String
  getLoc : String → String
  readAllRes : String → Except String String
  deleteErr : String → Option String
  deleteLocalErr : String → Option String
  deleteRemoteErr : String → List String → Option String

/-- The `help` map; a Go map read of a missing key yields the zero value
`""`. -/
def helpText (c : String) : String :=
  if c = "store" then
    "store <file-path>\n It stores the file at the given path on the server and replicate it on its peers."
  else if c = "get" then
    "get <filename>\n It gets the file from the server if its available on local storage or any of the peers."
  else if c = "delete" then
    "delete <filename>\n It deletes the file from the server and all its peers."
  else if c = "deletelocal" then
    "deletelocal <filename>\n It deletes the file from the local storage."
  else if c = "deleteremote" then
    "deleteremote <filename> <target-session>\n It deletes the file from the remote storage of the target session."
  else if c = "quit" then
    "quit\n It quits the program."
  else ""

/-- The `default` branch's output. -/
def unknownMsg : String :=
  "Unknown command. Supported: store, get, delete, deletelocal, quit"

/-- `case "store"` (lines 144-163): print the args slice; arity check; open
the file; key is `filepath.Base` of the path; call `fs.Store`. -/
def storeCmd (env : ReplEnv) (args rest : List String) : StepResult :=
  let pr := printSlice args
  match rest with
  | [path] =>
    if env.openOk path then
      let key := basePath path
      match env.storeErr key with
      | some e => ⟨[pr, "Error storing data " ++ e], [.store key], [], .next⟩
      | none => ⟨[pr], [.store key], [], .next⟩
    else ⟨[pr, env.openErrMsg path], [], [], .next⟩
  | _ => ⟨[pr, "Usage: store <file-path>"], [], [], .next⟩

/-- `case "get"` (lines 165-187): arity check; call `fs.Get`; report error
or location; then, whenever the key has no extension, `io.ReadAll` the
returned reader — also on the error path — and `log.Fatal` on read error. -/
def getCmd (env : ReplEnv) (rest : List String) : StepResult :=
  match rest with
  | [key] =>
    let getOut :=
      match env.getErr key with
      | some e => "Error getting file: " ++ e
      | none => "File stored at: " ++ env.getLoc key
    if getExtension key = "" then
      match env.readAllRes key with
      | .ok content => ⟨[getOut, content], [.get key], [key], .next⟩
      | .error e => ⟨[getOut, "Error reading data " ++ e], [.get key], [key], .fatal⟩
    else ⟨[getOut], [.get key], [], .next⟩
  | _ => ⟨["Usage: get <filename>"], [], [], .next⟩

/-- `case "delete"` (lines 189-198). -/
def deleteCmd (env : ReplEnv) (rest : List String) : StepResult :=
  match rest with
  | [key] =>
    match env.deleteErr key with
    | some e => ⟨["Error deleting file: " ++ e], [.delete key], [], .next⟩
    | none => ⟨[], [.delete key], [], .next⟩
  | _ => ⟨["Usage: delete <filename>"], [], [], .next⟩

/-- `case "deletelocal"` (lines 200-209). -/
def deleteLocalCmd (env : ReplEnv) (rest : List String) : StepResult :=
  match rest with
  | [key] =>
    match env.deleteLocalErr key with
    | some e => ⟨["Error deleting local file: " ++ e], [.deleteLocal key], [], .next⟩
    | none => ⟨[], [.deleteLocal key], [], .next⟩
  | _ => ⟨["Usage: deletelocal <filename>"], [], [], .next⟩

/-- `case "deleteremote"` (lines 210-220): the peer list is the third word
split on commas. -/
def deleteRemoteCmd (env : ReplEnv) (rest : List String) : StepResult :=
  match rest with
  | [key, csv] =>
    let session := splitComma csv
    match env.deleteRemoteErr key session with
    | some e => ⟨["Error deleting remote file: " ++ e], [.deleteRemote key session], [], .next⟩
    | none => ⟨[], [.deleteRemote key session], [], .next⟩
  | _ => ⟨["Usage: deleteremote <filename> <peer list separated by comma (ip:port)>"],
         [], [], .next⟩

/-- `case "help"` (lines 222-228). -/
def helpCmd (rest : List String) : StepResult :=
  match rest with
  | [c] => ⟨[helpText c], [], [], .next⟩
  | _ => ⟨["Usage: help <command>"], [], [], .next⟩

/-- The body of one iteration after `strings.Fields`: an empty line falls
through; otherwise the lowercased first word selects the case. -/
def processArgs (env : ReplEnv) (args : List String) : StepResult :=
  match args with
  | [] => ⟨[], [], [], .next⟩
  | a0 :: rest =>
    let cmd := goToLower a0
    if cmd = "store" then storeCmd env args rest
    else if cmd = "get" then getCmd env rest
    else if cmd = "delete" then deleteCmd env rest
    else if cmd = "deletelocal" then deleteLocalCmd env rest
    else if cmd = "deleteremote" then deleteRemoteCmd env rest
    else if cmd = "help" then helpCmd rest
    else if cmd = "quit" then ⟨["Exiting..."], [], [], .quitLoop⟩
    else ⟨[unknownMsg], [], [], .next⟩

/-- One iteration on a raw input line: split on whitespace, then dispatch. -/
def processLine (env : ReplEnv) (line : String) : StepResult :=
  processArgs env (goFields line)

/-- One item of the loop's console transcript: the prompt `>>> ` or an
output line. -/
inductive OutItem
  | prompt
  | line (s : String)
deriving DecidableEq

/-- How `runCommandLoop` ends: scanner exhausted (`break`), clean `return`
after `quit` (process then exits with code 0), or `log.Fatal`. -/
inductive ExitStatus
  | eofBreak
  | cleanQuit
  | fatalExit
deriving DecidableEq

/-- `runCommandLoop` over a finite list of stdin lines: each iteration
prints the prompt, reads a line (none left means `scanner.Scan` is false and
the loop breaks), handles it, and continues unless the iteration quit or
died. -/
def runCommandLoop (env : ReplEnv) : List String → List OutItem × ExitStatus
  | [] => ([.prompt], .eofBreak)
  | l :: ls =>
    let r := processLine env l
    match r.ctl with
    | .next =>
      let rec2 := runCommandLoop env ls
      (.prompt :: (r.outputs.map .line ++ rec2.1), rec2.2)
    | .quitLoop => (.prompt :: r.outputs.map .line, .cleanQuit)
    | .fatal => (.prompt :: r.outputs.map .line, .fatalExit)

/-- The number of prompts the loop should print for a given input: one per
line handled, plus the final prompt printed just before the scanner reports
end of input. -/
def promptCount (env : ReplEnv) : List String → Nat
  | [] => 1
  | l :: ls =>
    match (processLine env l).ctl with
    | .next => 1 + promptCount env ls
    | _ => 1

/-- The commands the switch recognises. -/
def knownCmds : List String :=
  ["store", "get", "delete", "deletelocal", "deleteremote", "help", "quit"]

/-- An environment in which every external call succeeds with benign
values. -/
def probeEnv : ReplEnv :=
  { openOk := fun _ => true
    openErrMsg := fun _ => ""
    storeErr := fun _ => none
    getErr := fun _ => none
    getLoc := fun _ => ""
    readAllRes := fun _ => .ok ""
    deleteErr := fun _ => none
    deleteLocalErr := fun _ => none
    deleteRemoteErr := fun _ _ => none }

/-- An environment in which `fs.Get` and `io.ReadAll` fail. -/
def failEnv : ReplEnv :=
  { probeEnv with
    getErr := fun _ => some "no such file"
    readAllRes := fun _ => .error "read failed" }

/-! ## Theorems -/

/-- **C2.** Every one of the eight control-message variants is registered
with the wire encoder: the list `registerAll` registers covers every
`ControlMessage`, has no duplicates, and equals, as a set, the list of
variants the data model names. -/
theorem C2_registerAll_covers_all_variants :
    (∀ v : ControlMessage, v ∈ registerAll) ∧
    registerAll.Nodup ∧
    registerAll.toFinset = dataModelVariants.toFinset := by
  refine ⟨fun v => ?_, by decide, by decide⟩
  cases v <;> decide

/-- **C1.** `AuditLogger.Log` appends exactly one `WriteString` to the audit
file, whose payload is `ts | op | filekey | peer | status` followed by a
newline — a single line whenever the arguments themselves contain no
newline — and the write happens between taking and releasing the mutex;
the audit file is opened by `simpleNewAuditLogger` with the append and
create flags. -/
theorem C1_audit_log_appends_one_line
    (a : AuditLogger) (ts op filekey peer status : String)
    (hts : ts.data.count '\n' = 0) (hop : op.data.count '\n' = 0)
    (hfk : filekey.data.count '\n' = 0) (hp : peer.data.count '\n' = 0)
    (hst : status.data.count '\n' = 0) :
    (a.Log ts op filekey peer status).1.logFile.chunks =
      a.logFile.chunks ++ [auditLine ts op filekey peer status] ∧
    auditLine ts op filekey peer status =
      ts ++ " | " ++ op ++ " | " ++ filekey ++ " | " ++ peer ++ " | " ++ status ++ "\n" ∧
    (auditLine ts op filekey peer status).data.count '\n' = 1 ∧
    (a.Log ts op filekey peer status).2 =
      [.lock, .writeChunk (auditLine ts op filekey peer status), .unlock] ∧
    (∀ ts2 name, ∃ lg, simpleNewAuditLogger ts2 name true = some lg ∧
      OpenFlag.append ∈ lg.logFile.flags ∧ OpenFlag.create ∈ lg.logFile.flags) := by
  refine ⟨rfl, rfl, ?_, rfl, fun ts2 name => ⟨_, rfl, by simp, by simp⟩⟩
  simp [auditLine, string_data_append, List.count_append, hts, hop, hfk, hp, hst]

/-- Witness for C1 at a concrete logger and concrete newline-free
arguments. -/
theorem C1_audit_log_appends_one_line_witness :
    (auditLine "2024-01-01T00:00:00Z" "STORE" "abc" ":3000" "OK").data.count '\n' = 1 ∧
    (AuditLogger.Log ⟨⟨[.append, .create, .wronly], []⟩, "audit.log"⟩
        "2024-01-01T00:00:00Z" "STORE" "abc" ":3000" "OK").1.logFile.chunks =
      [auditLine "2024-01-01T00:00:00Z" "STORE" "abc" ":3000" "OK"] := by
  have h := C1_audit_log_appends_one_line ⟨⟨[.append, .create, .wronly], []⟩, "audit.log"⟩
    "2024-01-01T00:00:00Z" "STORE" "abc" ":3000" "OK"
    (by decide) (by decide) (by decide) (by decide) (by decide)
  exact ⟨h.2.2.1, h.1⟩

/-- **C4.** Each server receives the key freshly generated at its own
startup: `makeServer`'s `EncKey` is exactly the result of its
`newEncryptionKey()` call, that call happens exactly once, no key file is
read or written, and servers built from distinct fresh keys never share a
key. -/
theorem C4_fresh_key_per_server (cfg1 cfg2 : ServerConfig) (k1 k2 : List Nat)
    (hk : k1 ≠ k2) :
    (makeServer cfg1 k1).fsOps.EncKey = k1 ∧
    (makeServer cfg1 k1).effects.count .newEncryptionKey = 1 ∧
    (∀ p, StartupEffect.readKeyFile p ∉ (makeServer cfg1 k1).effects ∧
          StartupEffect.writeKeyFile p ∉ (makeServer cfg1 k1).effects) ∧
    (makeServer cfg1 k1).fsOps.EncKey ≠ (makeServer cfg2 k2).fsOps.EncKey := by
  refine ⟨rfl, rfl, fun p => ⟨?_, ?_⟩, hk⟩ <;> simp [makeServer]

/-- Witness for C4 at two concrete configurations and distinct keys. -/
theorem C4_fresh_key_per_server_witness :
    (makeServer ⟨":3000", []⟩ [7]).fsOps.EncKey ≠
      (makeServer ⟨":3001", [":3000"]⟩ [9]).fsOps.EncKey :=
  (C4_fresh_key_per_server ⟨":3000", []⟩ ⟨":3001", [":3000"]⟩ [7] [9] (by decide)).2.2.2

/-- **C7.** Every server built by `makeServer` installs
`DefensiveHandshakeFunc` as its transport handshake, and that handshake
exchanges no bytes and accepts every peer. -/
theorem C7_defensive_handshake_installed (cfg : ServerConfig) (k : List Nat) :
    (makeServer cfg k).tcpOps.ShakeHands = DefensiveHandshakeFunc ∧
    ∀ peer, DefensiveHandshakeFunc peer =
      { bytesSent := 0, bytesReceived := 0, ok := true } :=
  ⟨rfl, fun _ => rfl⟩

/-- Replacing `':'` by `'_'` is injective on character lists that contain no
`'_'`. -/
theorem replaceColonList_inj :
    ∀ l1 l2 : List Char, '_' ∉ l1 → '_' ∉ l2 →
      l1.map (fun c => if c = ':' then '_' else c) =
        l2.map (fun c => if c = ':' then '_' else c) →
      l1 = l2 := by
  intro l1
  induction l1 with
  | nil =>
    intro l2 _ _ h
    cases l2 with
    | nil => rfl
    | cons b bs => simp at h
  | cons a as ih =>
    intro l2 h1 h2 h
    cases l2 with
    | nil => simp at h
    | cons b bs =>
      simp only [List.map_cons, List.cons.injEq] at h
      obtain ⟨hab, hrest⟩ := h
      have ha : a ≠ '_' := fun hEq => h1 (by simp [hEq])
      have hb : b ≠ '_' := fun hEq => h2 (by simp [hEq])
      have hEq : a = b := by
        by_cases hac : a = ':' <;> by_cases hbc : b = ':' <;>
          simp [hac, hbc] at hab <;> simp_all
      subst hEq
      have htail := ih bs (fun hm => h1 (List.mem_cons_of_mem _ hm))
        (fun hm => h2 (List.mem_cons_of_mem _ hm)) hrest
      rw [htail]

/-- `storageRoot` is injective on listen addresses free of `'_'`. -/
theorem storageRoot_inj (p1 p2 : String)
    (h1 : '_' ∉ p1.data) (h2 : '_' ∉ p2.data)
    (h : storageRoot p1 = storageRoot p2) : p1 = p2 := by
  have hdata := congrArg String.data h
  simp only [storageRoot, string_data_append] at hdata
  have hrep : (replaceColon p1).data = (replaceColon p2).data :=
    List.append_cancel_right hdata
  simp only [replaceColon] at hrep
  cases p1 with
  | mk l1 =>
    cases p2 with
    | mk l2 =>
      have := replaceColonList_inj l1 l2 h1 h2 hrep
      simp [this]

/-- **C5 counterexample.** Two distinct listen addresses, `":3000"` and
`"_3000"`, receive the same storage root, refuting the claim that distinct
listen addresses always yield distinct storage roots. -/
theorem C5_distinct_addresses_share_root :
    (makeServer ⟨":3000", []⟩ []).fsOps.RootStorage =
      (makeServer ⟨"_3000", []⟩ []).fsOps.RootStorage ∧
    (":3000" : String) ≠ "_3000" := by
  constructor
  · decide
  · decide

/-- **C5 (amended).** The storage root is derived deterministically from the
node's listen address by replacing `':'` with `'_'` and appending the fixed
suffix `"_gyattt"`; two nodes with distinct listen addresses get distinct
storage roots provided neither address contains the replacement character
`'_'`. -/
theorem C5_storage_root_from_address (cfg1 cfg2 : ServerConfig) (k1 k2 : List Nat)
    (h1 : '_' ∉ cfg1.Port.data) (h2 : '_' ∉ cfg2.Port.data)
    (hne : cfg1.Port ≠ cfg2.Port) :
    (makeServer cfg1 k1).fsOps.RootStorage = storageRoot cfg1.Port ∧
    storageRoot cfg1.Port = replaceColon cfg1.Port ++ "_gyattt" ∧
    (makeServer cfg1 k1).fsOps.RootStorage ≠ (makeServer cfg2 k2).fsOps.RootStorage := by
  refine ⟨rfl, rfl, fun hEq => hne ?_⟩
  exact storageRoot_inj cfg1.Port cfg2.Port h1 h2 hEq

/-- Witness for the amended C5 at the two concrete addresses `":3000"` and
`":3001"`. -/
theorem C5_storage_root_from_address_witness :
    (makeServer ⟨":3000", []⟩ [7]).fsOps.RootStorage ≠
      (makeServer ⟨":3001", []⟩ [7]).fsOps.RootStorage :=
  (C5_storage_root_from_address ⟨":3000", []⟩ ⟨":3001", []⟩ [7] [7]
    (by decide) (by decide) (by decide)).2.2

/-- An element-wise decoder succeeds on a list exactly when it succeeds on
every element. -/
theorem mapOpt_isSome_all {α β : Type} (f : α → Option β) (g : α → Bool)
    (hf : ∀ a, (f a).isSome = g a) :
    ∀ xs : List α, (mapOpt f xs).isSome = xs.all g := by
  intro xs
  induction xs with
  | nil => rfl
  | cons a as ih =>
    have hga := hf a
    rw [List.all_cons, ← hga, ← ih]
    cases hfa : f a with
    | none => simp [mapOpt, hfa]
    | some b =>
      cases hm : mapOpt f as with
      | none => simp [mapOpt, hfa, hm]
      | some bs => simp [mapOpt, hfa, hm]

/-- A successful element-wise decode produces one output per input. -/
theorem mapOpt_some_length {α β : Type} (f : α → Option β) :
    ∀ (xs : List α) (ys : List β), mapOpt f xs = some ys → ys.length = xs.length := by
  intro xs
  induction xs with
  | nil =>
    intro ys h
    simp only [mapOpt, Option.some.injEq] at h
    simp [← h]
  | cons a as ih =>
    intro ys h
    cases hfa : f a with
    | none => simp [mapOpt, hfa] at h
    | some b =>
      cases hm : mapOpt f as with
      | none => simp [mapOpt, hfa, hm] at h
      | some bs =>
        simp only [mapOpt, hfa, hm, Option.some.injEq] at h
        rw [← h]
        simp [ih bs hm]

/-- Decoding a JSON array of strings into `[]string` recovers exactly those
strings. -/
theorem mapOpt_decodePeerElem_strs (ps : List String) :
    mapOpt decodePeerElem (ps.map Json.str) = some ps := by
  induction ps with
  | nil => rfl
  | cons p rest ih => simp [mapOpt, decodePeerElem, ih]

/-- A `string` field decodes exactly when its shape is good. -/
theorem decodeStringField_isSome (o : Option Json) :
    (decodeStringField o).isSome = goodStr o := by
  match o with
  | none => rfl
  | some v => cases v <;> rfl

/-- A `[]string` field decodes exactly when its shape is good. -/
theorem decodePeersField_isSome (o : Option Json) :
    (decodePeersField o).isSome = goodPeers o := by
  match o with
  | none => rfl
  | some .null => rfl
  | some (.arr xs) =>
    simp only [decodePeersField, goodPeers]
    exact mapOpt_isSome_all decodePeerElem _ (fun v => by cases v <;> rfl) xs
  | some (.bool b) => rfl
  | some (.num n) => rfl
  | some (.str s) => rfl
  | some (.obj fs) => rfl

/-- One config element decodes exactly when its shape is good. -/
theorem decodeServerConfig_isSome (e : Json) :
    (decodeServerConfig e).isSome = goodElem e := by
  cases e with
  | obj fs =>
    simp only [decodeServerConfig, goodElem]
    rw [← decodeStringField_isSome, ← decodePeersField_isSome]
    cases decodeStringField (lookupField fs "port") with
    | none => rfl
    | some port =>
      cases decodePeersField (lookupField fs "peers") with
      | none => rfl
      | some ps => rfl
  | _ => rfl

/-- **C6 counterexample.** The document `[{}]` — an array whose only element
is an object with neither a `"port"` nor a `"peers"` field — is not "a JSON
array of objects with fields port and peers", yet `loadConfig` succeeds on
it, returning the zero-valued configuration instead of an error. -/
theorem C6_fieldless_object_decodes :
    specArrayOfPortPeersObjects (.arr [.obj []]) = false ∧
    loadConfig (some (.arr [.obj []])) = some [⟨"", []⟩] := ⟨rfl, rfl⟩

/-- **C6 (amended).** `loadConfig` returns an error exactly when the file
cannot be opened or its content fails Go JSON decoding into the config list
(top level neither array nor null, an element neither object nor null, or a
port/peers field of the wrong type); fields may be absent or null, in which
case they default to the zero values. On success it returns exactly one
`ServerConfig` per array element, with `Port` and `BootstrapNodes` taken
from the `port` and `peers` fields. -/
theorem C6_loadConfig_decode (j : Json) (xs : List Json) (cfgs : List ServerConfig)
    (fs : List (String × Json)) (c : ServerConfig)
    (hxs : loadConfig (some (.arr xs)) = some cfgs)
    (hc : decodeServerConfig (.obj fs) = some c) :
    loadConfig none = none ∧
    (loadConfig (some j)).isSome = goodTop j ∧
    cfgs.length = xs.length ∧
    (∀ p, lookupField fs "port" = some (.str p) → c.Port = p) ∧
    (∀ ps, lookupField fs "peers" = some (.arr (ps.map .str)) →
      c.BootstrapNodes = ps) := by
  refine ⟨rfl, ?_, ?_, ?_, ?_⟩
  · cases j with
    | arr elems =>
      simp only [loadConfig, decodeConfigList, goodTop]
      exact mapOpt_isSome_all decodeServerConfig goodElem decodeServerConfig_isSome elems
    | _ => rfl
  · exact mapOpt_some_length decodeServerConfig xs cfgs hxs
  · intro p hp
    simp only [decodeServerConfig, hp, decodeStringField] at hc
    cases hps : decodePeersField (lookupField fs "peers") with
    | none => rw [hps] at hc; simp at hc
    | some ps2 =>
      rw [hps] at hc
      simp only [Option.some.injEq] at hc
      rw [← hc]
  · intro ps hps
    simp only [decodeServerConfig, hps, decodePeersField,
      mapOpt_decodePeerElem_strs] at hc
    cases hpv : decodeStringField (lookupField fs "port") with
    | none => rw [hpv] at hc; simp at hc
    | some s =>
      rw [hpv] at hc
      simp only [Option.some.injEq] at hc
      rw [← hc]

/-- Witness for the amended C6 at a concrete well-formed document. -/
theorem C6_loadConfig_decode_witness :
    (loadConfig (some (.arr [.obj [("port", .str ":3000"),
        ("peers", .arr [.str ":3001"])]])) = some [⟨":3000", [":3001"]⟩]) ∧
    (⟨":3000", [":3001"]⟩ : ServerConfig).Port = ":3000" ∧
    (⟨":3000", [":3001"]⟩ : ServerConfig).BootstrapNodes = [":3001"] := by
  have h := C6_loadConfig_decode (.arr [.obj [("port", .str ":3000"),
      ("peers", .arr [.str ":3001"])]])
    [.obj [("port", .str ":3000"), ("peers", .arr [.str ":3001"])]]
    [⟨":3000", [":3001"]⟩]
    [("port", .str ":3000"), ("peers", .arr [.str ":3001"])]
    ⟨":3000", [":3001"]⟩ rfl rfl
  refine ⟨rfl, h.2.2.2.1 ":3000" rfl, h.2.2.2.2 [":3001"] rfl⟩

/-! ### REPL helper lemmas -/

/-- Dispatch: a first word lowercasing to `"store"` selects the store case. -/
theorem processArgs_store (env : ReplEnv) (a0 : String) (rest : List String)
    (h : goToLower a0 = "store") :
    processArgs env (a0 :: rest) = storeCmd env (a0 :: rest) rest := by
  simp [processArgs, h]

/-- Dispatch for `"get"`. -/
theorem processArgs_get (env : ReplEnv) (a0 : String) (rest : List String)
    (h : goToLower a0 = "get") :
    processArgs env (a0 :: rest) = getCmd env rest := by
  simp [processArgs, h]

/-- Dispatch for `"delete"`. -/
theorem processArgs_delete (env : ReplEnv) (a0 : String) (rest : List String)
    (h : goToLower a0 = "delete") :
    processArgs env (a0 :: rest) = deleteCmd env rest := by
  simp [processArgs, h]

/-- Dispatch for `"deletelocal"`. -/
theorem processArgs_deletelocal (env : ReplEnv) (a0 : String) (rest : List String)
    (h : goToLower a0 = "deletelocal") :
    processArgs env (a0 :: rest) = deleteLocalCmd env rest := by
  simp [processArgs, h]

/-- Dispatch for `"deleteremote"`. -/
theorem processArgs_deleteremote (env : ReplEnv) (a0 : String) (rest : List String)
    (h : goToLower a0 = "deleteremote") :
    processArgs env (a0 :: rest) = deleteRemoteCmd env rest := by
  simp [processArgs, h]

/-- Dispatch for `"help"`. -/
theorem processArgs_help (env : ReplEnv) (a0 : String) (rest : List String)
    (h : goToLower a0 = "help") :
    processArgs env (a0 :: rest) = helpCmd rest := by
  simp [processArgs, h]

/-- Dispatch for `"quit"`. -/
theorem processArgs_quit (env : ReplEnv) (a0 : String) (rest : List String)
    (h : goToLower a0 = "quit") :
    processArgs env (a0 :: rest) = ⟨["Exiting..."], [], [], .quitLoop⟩ := by
  simp [processArgs, h]

/-- Dispatch for unknown commands. -/
theorem processArgs_unknown (env : ReplEnv) (a0 : String) (rest : List String)
    (h : goToLower a0 ∉ knownCmds) :
    processArgs env (a0 :: rest) = ⟨[unknownMsg], [], [], .next⟩ := by
  simp only [knownCmds, List.mem_cons, List.not_mem_nil, or_false, not_or] at h
  obtain ⟨h1, h2, h3, h4, h5, h6, h7⟩ := h
  simp [processArgs, h1, h2, h3, h4, h5, h6, h7]

/-- The bracketed `fmt.Println(args)` dump never coincides with the
unknown-command line: it starts with `'['`. -/
theorem printSlice_ne_unknownMsg (args : List String) : printSlice args ≠ unknownMsg := by
  intro h
  have hc := congrArg (fun s => s.data.count '[') h
  simp only [printSlice, string_data_append, List.count_append] at hc
  have h1 : ("[" : String).data.count '[' = 1 := rfl
  have h2 : ("]" : String).data.count '[' = 0 := rfl
  have h3 : unknownMsg.data.count '[' = 0 := rfl
  rw [h1, h2, h3] at hc
  omega

/-- The help text of any word differs from the unknown-command line. -/
theorem helpText_ne_unknownMsg (c : String) : helpText c ≠ unknownMsg := by
  rw [helpText]
  split_ifs <;> decide

/-- Mapped output lines contain no prompt item. -/
theorem count_prompt_map_line (l : List String) :
    (l.map OutItem.line).count OutItem.prompt = 0 := by
  induction l with
  | nil => rfl
  | cons s rest ih => simp [List.count_cons, ih]

/-- Tokens produced by `fieldsAux` from a whitespace-free accumulator are
nonempty and whitespace-free. -/
theorem fieldsAux_tokens :
    ∀ l acc : List Char, (∀ c ∈ acc, goIsSpace c = false) →
      ∀ t ∈ fieldsAux l acc, t ≠ [] ∧ ∀ c ∈ t, goIsSpace c = false := by
  intro l
  induction l with
  | nil =>
    intro acc hacc t ht
    cases acc with
    | nil => simp [fieldsAux] at ht
    | cons a as =>
      simp only [fieldsAux, List.isEmpty_cons, if_neg] at ht
      simp only [Bool.false_eq_true, if_false, List.mem_singleton] at ht
      subst ht
      refine ⟨by simp, fun c hc => hacc c (List.mem_reverse.mp hc)⟩
  | cons x xs ih =>
    intro acc hacc t ht
    simp only [fieldsAux] at ht
    by_cases hsp : goIsSpace x = true
    · rw [if_pos hsp] at ht
      cases acc with
      | nil =>
        simp only [List.isEmpty_nil, if_true] at ht
        exact ih [] (by simp) t ht
      | cons a as =>
        simp only [List.isEmpty_cons, Bool.false_eq_true, if_false,
          List.mem_cons] at ht
        rcases ht with h1 | h2
        · subst h1
          refine ⟨by simp, fun c hc => hacc c (List.mem_reverse.mp hc)⟩
        · exact ih [] (by simp) t h2
    · rw [if_neg hsp] at ht
      refine ih (x :: acc) ?_ t ht
      intro c hc
      rcases List.mem_cons.mp hc with h1 | h2
      · subst h1
        exact Bool.not_eq_true _ |>.mp hsp
      · exact hacc c h2

/-- With every oracle benign, no recognised command's handler prints the
unknown-command line. -/
theorem known_cmd_no_unknownMsg (a0 : String) (rest : List String)
    (hcmd : goToLower a0 ∈ knownCmds) :
    unknownMsg ∉ (processArgs probeEnv (a0 :: rest)).outputs := by
  simp only [knownCmds, List.mem_cons, List.not_mem_nil, or_false] at hcmd
  rcases hcmd with h | h | h | h | h | h | h
  · rw [processArgs_store probeEnv a0 rest h]
    match rest with
    | [path] =>
      simp only [storeCmd, probeEnv, if_true, List.mem_singleton]
      exact fun hx => printSlice_ne_unknownMsg _ hx.symm
    | [] =>
      simp only [storeCmd, List.mem_cons, List.mem_singleton, List.not_mem_nil, or_false]
      rintro (hx | hx)
      · exact printSlice_ne_unknownMsg _ hx.symm
      · exact absurd hx (by decide)
    | x :: y :: t =>
      simp only [storeCmd, List.mem_cons, List.mem_singleton, List.not_mem_nil, or_false]
      rintro (hx | hx)
      · exact printSlice_ne_unknownMsg _ hx.symm
      · exact absurd hx (by decide)
  · rw [processArgs_get probeEnv a0 rest h]
    match rest with
    | [key] =>
      by_cases hext : getExtension key = ""
      · simp [getCmd, probeEnv, hext]
        decide
      · simp [getCmd, probeEnv, hext]
        decide
    | [] => simp [getCmd]; decide
    | x :: y :: t => simp [getCmd]; decide
  · rw [processArgs_delete probeEnv a0 rest h]
    match rest with
    | [key] => simp [deleteCmd, probeEnv]
    | [] => simp [deleteCmd]; decide
    | x :: y :: t => simp [deleteCmd]; decide
  · rw [processArgs_deletelocal probeEnv a0 rest h]
    match rest with
    | [key] => simp [deleteLocalCmd, probeEnv]
    | [] => simp [deleteLocalCmd]; decide
    | x :: y :: t => simp [deleteLocalCmd]; decide
  · rw [processArgs_deleteremote probeEnv a0 rest h]
    match rest with
    | [key, csv] => simp [deleteRemoteCmd, probeEnv]
    | [] => simp [deleteRemoteCmd]; decide
    | [x] => simp [deleteRemoteCmd]; decide
    | x :: y :: z :: t => simp [deleteRemoteCmd]; decide
  · rw [processArgs_help probeEnv a0 rest h]
    match rest with
    | [c] =>
      simp only [helpCmd, List.mem_singleton]
      exact fun hx => helpText_ne_unknownMsg c hx.symm
    | [] => simp [helpCmd]; decide
    | x :: y :: t => simp [helpCmd]; decide
  · rw [processArgs_quit probeEnv a0 rest h]
    simp only [List.mem_singleton]
    decide

/-- **C3.** The REPL prints the prompt `>>> ` once per line it reads (and
once more when input ends), splits each line on whitespace into nonempty
whitespace-free words, dispatches exactly the commands `store`, `get`,
`delete`, `deletelocal`, `deleteremote`, `help` and `quit` (any other
non-empty first word yields exactly the unknown-command error line and no
`FileServer` call), and `quit` ends the loop with the clean-exit status
(process exit code 0). -/
theorem C3_repl_loop :
    (∀ (env : ReplEnv) (lines : List String),
      ((runCommandLoop env lines).1.count .prompt) = promptCount env lines) ∧
    (∀ (env : ReplEnv) (line : String),
      processLine env line = processArgs env (goFields line)) ∧
    (∀ (line : String) (w : String), w ∈ goFields line →
      w ≠ "" ∧ ∀ c ∈ w.data, goIsSpace c = false) ∧
    (∀ (env : ReplEnv) (line a0 : String) (rest : List String),
      goFields line = a0 :: rest → goToLower a0 ∉ knownCmds →
      processLine env line = ⟨[unknownMsg], [], [], .next⟩) ∧
    (∀ (a0 : String) (rest : List String), goToLower a0 ∈ knownCmds →
      unknownMsg ∉ (processArgs probeEnv (a0 :: rest)).outputs) ∧
    (∀ (env : ReplEnv) (line : String) (ls : List String),
      goFields line = ["quit"] →
      runCommandLoop env (line :: ls) =
        ([.prompt, .line "Exiting..."], .cleanQuit)) := by
  refine ⟨?_, fun env line => rfl, ?_, ?_, known_cmd_no_unknownMsg, ?_⟩
  · intro env lines
    induction lines with
    | nil => rfl
    | cons l ls ih =>
      simp only [runCommandLoop, promptCount]
      cases hctl : (processLine env l).ctl with
      | next =>
        show (OutItem.prompt ::
            ((processLine env l).outputs.map .line ++ (runCommandLoop env ls).1)).count
              .prompt = 1 + promptCount env ls
        rw [List.count_cons, List.count_append, count_prompt_map_line, ih]
        simp only [beq_self_eq_true, if_true]
        omega
      | quitLoop => simp [List.count_cons, count_prompt_map_line]
      | fatal => simp [List.count_cons, count_prompt_map_line]
  · intro line w hw
    simp only [goFields, List.mem_map] at hw
    obtain ⟨t, ht, hwt⟩ := hw
    obtain ⟨hne, hfree⟩ := fieldsAux_tokens line.data [] (by simp) t ht
    subst hwt
    constructor
    · intro hc
      exact hne (congrArg String.data hc)
    · exact hfree
  · intro env line a0 rest hsplit hnot
    rw [processLine, hsplit]
    exact processArgs_unknown env a0 rest hnot
  · intro env line ls hsplit
    simp only [runCommandLoop, processLine, hsplit]
    rw [processArgs_quit env "quit" [] (by decide)]
    rfl

/-- Witness for C3: a concrete unrecognised command yields exactly the
error line, and a concrete `quit` line ends the loop cleanly. -/
theorem C3_repl_loop_witness :
    processLine probeEnv "frobnicate now" = ⟨[unknownMsg], [], [], .next⟩ ∧
    runCommandLoop probeEnv ["quit"] = ([.prompt, .line "Exiting..."], .cleanQuit) := by
  constructor
  · exact C3_repl_loop.2.2.2.1 probeEnv "frobnicate now" "frobnicate" ["now"]
      (by decide) (by decide)
  · exact C3_repl_loop.2.2.2.2.2 probeEnv "quit" [] (by decide)

/-- **C8.** For every `store <path>` line whose file opens successfully, the
key passed to `FileServer.Store` is `filepath.Base` of the path, so any two
paths with the same base name yield the same logical key and, fingerprinting
being a function of the key, the same fingerprint. -/
theorem C8_store_key_is_base_name (env : ReplEnv) (line p : String)
    (hf : goFields line = ["store", p]) (hopen : env.openOk p = true) :
    (processLine env line).ops = [.store (basePath p)] ∧
    (∀ p2 : String, basePath p2 = basePath p →
      ∀ fingerprint : String → String,
        fingerprint (basePath p2) = fingerprint (basePath p)) := by
  constructor
  · rw [processLine, hf, processArgs_store env "store" [p] (by decide)]
    simp only [storeCmd, hopen, if_true]
    cases env.storeErr (basePath p) <;> rfl
  · exact fun p2 h fp => congrArg fp h

/-- Witness for C8: storing `a/x.txt` and `b/x.txt` passes the same key
`x.txt` to the store operation. -/
theorem C8_store_key_is_base_name_witness :
    (processLine probeEnv "store a/x.txt").ops = [.store (basePath "a/x.txt")] ∧
    (processLine probeEnv "store b/x.txt").ops = [.store (basePath "a/x.txt")] ∧
    basePath "a/x.txt" = "x.txt" := by
  have h1 := C8_store_key_is_base_name probeEnv "store a/x.txt" "a/x.txt"
    (by decide) rfl
  have h2 := C8_store_key_is_base_name probeEnv "store b/x.txt" "b/x.txt"
    (by decide) rfl
  refine ⟨h1.1, ?_, by decide⟩
  rw [h2.1]
  have hbase : basePath "b/x.txt" = basePath "a/x.txt" := by decide
  rw [hbase]

/-- **C9.** For every `get <name>` line where the name has no extension, the
loop passes the reader returned by `fs.Get` to `io.ReadAll` whether or not
`Get` returned an error, and a failing read ends the whole process through
`log.Fatal`. -/
theorem C9_get_reads_even_on_error (env : ReplEnv) (line key : String)
    (hf : goFields line = ["get", key]) (hext : getExtension key = "") :
    (processLine env line).reads = [key] ∧
    (env.getErr key ≠ none → (processLine env line).reads = [key]) ∧
    (∀ e, env.readAllRes key = .error e → (processLine env line).ctl = .fatal) := by
  have hred : processLine env line = getCmd env [key] := by
    rw [processLine, hf, processArgs_get env "get" [key] (by decide)]
  have hreads : (getCmd env [key]).reads = [key] := by
    simp only [getCmd, hext, if_true]
    cases env.getErr key <;> cases env.readAllRes key <;> rfl
  refine ⟨hred ▸ hreads, fun _ => hred ▸ hreads, fun e he => ?_⟩
  rw [hred]
  simp only [getCmd, hext, if_true, he]

/-- Witness for C9: with `fs.Get` failing and the read failing, the read is
still attempted and the iteration ends in `log.Fatal`. -/
theorem C9_get_reads_even_on_error_witness :
    (processLine failEnv "get foo").reads = ["foo"] ∧
    (processLine failEnv "get foo").ctl = .fatal := by
  have h := C9_get_reads_even_on_error failEnv "get foo" "foo" (by decide) (by decide)
  exact ⟨h.1, h.2.2 "read failed" rfl⟩

/-- The usage line each argument-taking command prints. -/
def usageLine (cmd : String) : String :=
  if cmd = "store" then "Usage: store <file-path>"
  else if cmd = "get" then "Usage: get <filename>"
  else if cmd = "delete" then "Usage: delete <filename>"
  else if cmd = "deletelocal" then "Usage: deletelocal <filename>"
  else if cmd = "deleteremote" then
    "Usage: deleteremote <filename> <peer list separated by comma (ip:port)>"
  else "Usage: help <command>"

/-- The argument count (first word included) each command expects. -/
def cmdArity (cmd : String) : Nat := if cmd = "deleteremote" then 3 else 2

/-- **C10 counterexample.** `quit` is a recognised command, `quit now` gives
it a wrong argument count, yet the loop prints no usage line and does not
return to the prompt: it exits. -/
theorem C10_quit_ignores_extra_args :
    (processLine probeEnv "quit now").ctl = .quitLoop ∧
    (processLine probeEnv "quit now").outputs = ["Exiting..."] := by
  constructor <;> rfl

/-- **C10 (amended).** For every recognised command other than `quit`
invoked with the wrong number of arguments, the loop prints that command's
usage line and returns to the prompt with no `FileServer` call and no read;
`quit` instead ignores its argument count and always exits the loop cleanly,
also with no `FileServer` call. -/
theorem C10_wrong_arity_is_harmless (env : ReplEnv) (a0 : String)
    (rest : List String)
    (hcmd : goToLower a0 ∈ ["store", "get", "delete", "deletelocal",
      "deleteremote", "help"])
    (hbad : (a0 :: rest).length ≠ cmdArity (goToLower a0)) :
    (usageLine (goToLower a0) ∈ (processArgs env (a0 :: rest)).outputs ∧
      (processArgs env (a0 :: rest)).ops = [] ∧
      (processArgs env (a0 :: rest)).reads = [] ∧
      (processArgs env (a0 :: rest)).ctl = .next) ∧
    (∀ qrest : List String,
      processArgs env ("quit" :: qrest) = ⟨["Exiting..."], [], [], .quitLoop⟩) := by
  refine ⟨?_, fun qrest => processArgs_quit env "quit" qrest (by decide)⟩
  simp only [List.mem_cons, List.not_mem_nil, or_false] at hcmd
  rcases hcmd with h | h | h | h | h | h
  · rw [processArgs_store env a0 rest h, h]
    match rest with
    | [] => simp [storeCmd, usageLine]
    | [x] => rw [h] at hbad; simp [cmdArity] at hbad
    | x :: y :: t => simp [storeCmd, usageLine]
  · rw [processArgs_get env a0 rest h, h]
    match rest with
    | [] => simp [getCmd, usageLine]
    | [x] => rw [h] at hbad; simp [cmdArity] at hbad
    | x :: y :: t => simp [getCmd, usageLine]
  · rw [processArgs_delete env a0 rest h, h]
    match rest with
    | [] => simp [deleteCmd, usageLine]
    | [x] => rw [h] at hbad; simp [cmdArity] at hbad
    | x :: y :: t => simp [deleteCmd, usageLine]
  · rw [processArgs_deletelocal env a0 rest h, h]
    match rest with
    | [] => simp [deleteLocalCmd, usageLine]
    | [x] => rw [h] at hbad; simp [cmdArity] at hbad
    | x :: y :: t => simp [deleteLocalCmd, usageLine]
  · rw [processArgs_deleteremote env a0 rest h, h]
    match rest with
    | [] => simp [deleteRemoteCmd, usageLine]
    | [x] => simp [deleteRemoteCmd, usageLine]
    | [x, y] => rw [h] at hbad; simp [cmdArity] at hbad
    | x :: y :: z :: t => simp [deleteRemoteCmd, usageLine]
  · rw [processArgs_help env a0 rest h, h]
    match rest with
    | [] => simp [helpCmd, usageLine]
    | [x] => rw [h] at hbad; simp [cmdArity] at hbad
    | x :: y :: t => simp [helpCmd, usageLine]

/-- Witness for the amended C10: `store` with no argument prints its usage
line and performs no operation. -/
theorem C10_wrong_arity_is_harmless_witness :
    usageLine (goToLower "store") ∈ (processArgs probeEnv ["store"]).outputs ∧
    (processArgs probeEnv ["store"]).ops = [] ∧
    (processArgs probeEnv ["store"]).ctl = .next := by
  have h := C10_wrong_arity_is_harmless probeEnv "store" [] (by decide) (by decide)
  exact ⟨h.1.1, h.1.2.1, h.1.2.2.2⟩
